import Mathlib

/-!
Verification of the calendar interval store of the `calcal` repository
(src/src/Calendar/ctx.tsx and the IndexedDB storage module), via a shallow
embedding of its data model and operations into Lean.

Modelling conventions:
* A JavaScript `Date` is modelled as a record of local wall-clock calendar
  fields (year, month 1-12, day, hours, minutes, seconds, milliseconds).
  `Date.prototype.getTime` is modelled by converting the fields to epoch
  milliseconds with the standard proleptic-Gregorian day-number computation
  (timezone offset taken as zero; the spec declares timezone handling out of
  scope).  `Date.prototype.toDateString` renders a string determined by
  (and injective in) the (year, month, day) triple, which is all the code
  relies on; we render the triple numerically.
* A JavaScript `Map<string, DateInterval[]>` is modelled as an association
  list with `get` / `set` / `delete` operations matching `Map` semantics
  (`set` replaces the binding in place, new keys are appended at the end).
* Absent (`undefined` / `null`) `start` and `end` fields are modelled with
  `Option`; the falsy empty-string identifier is modelled by `""`.
* `Math.random().toString(36).substring(2, 15)` identifier generation is
  modelled by an explicit `fresh : String` parameter; freshness and
  non-emptiness of generated identifiers are hypotheses where needed.
-/

structure Time where
  year : Nat
  month : Nat
  day : Nat
  hours : Nat
  minutes : Nat
  seconds : Nat
  millis : Nat
deriving DecidableEq, Repr

/-- Day count from 1970-01-01 for a (year, month 1-12, day) civil date,
proleptic Gregorian (Howard Hinnant's `days_from_civil` algorithm). -/
def daysFromCivil (year month day : Nat) : Int :=
  let y : Int := if month ≤ 2 then (year : Int) - 1 else (year : Int)
  let era : Int := (if 0 ≤ y then y else y - 399) / 400
  let yoe : Int := y - era * 400
  let mp : Int := ((month : Int) + 9) % 12
  let doy : Int := (153 * mp + 2) / 5 + (day : Int) - 1
  let doe : Int := yoe * 365 + yoe / 4 - yoe / 100 + doy
  era * 146097 + doe - 719468

/-- Models `Date.prototype.getTime`: epoch milliseconds. -/
def getTime (t : Time) : Int :=
  daysFromCivil t.year t.month t.day * 86400000
    + (t.hours : Int) * 3600000 + (t.minutes : Int) * 60000
    + (t.seconds : Int) * 1000 + (t.millis : Int)

/-- Models `date.setHours(0, 0, 0, 0)`: midnight of the same calendar day. -/
def setMidnight (t : Time) : Time :=
  { t with hours := 0, minutes := 0, seconds := 0, millis := 0 }

/-- Models `Date.prototype.toDateString`: a string determined by, and
injective in, the calendar-day triple (the JS rendering "Mon Jan 01 2024"
has both properties; we render the triple numerically). -/
def toDateString (t : Time) : String :=
  toString t.year ++ "-" ++ toString t.month ++ "-" ++ toString t.day

/-- The day-bucket key as derived throughout ctx.tsx:
`dayD.setHours(0,0,0,0); dayD.toDateString()`. -/
def dayKey (t : Time) : String :=
  toDateString (setMidnight t)

/-- ctx.tsx `cropDateToHoursMinutes`: zero the seconds and milliseconds. -/
def cropDateToHoursMinutes (date : Time) : Time :=
  { date with seconds := 0, millis := 0 }

structure DateInterval where
  identifier : String
  start : Option Time
  «end» : Option Time
  msg : String
deriving DecidableEq, Repr

/-- ctx.tsx `cropDayInterval`: crop `start` and (when present) `end` to
minute precision. -/
def cropDayInterval (dateInterval : DateInterval) : DateInterval :=
  { dateInterval with
      start := dateInterval.start.map cropDateToHoursMinutes
      «end» := dateInterval.«end».map cropDateToHoursMinutes }

/-- The in-memory store: `Map<string, DateInterval[]>`. -/
abbrev Calendar := List (String × List DateInterval)

def mapGet (m : Calendar) (k : String) : Option (List DateInterval) :=
  match m with
  | [] => none
  | (k', v) :: rest => if k' = k then some v else mapGet rest k

def mapSet (m : Calendar) (k : String) (v : List DateInterval) : Calendar :=
  match m with
  | [] => [(k, v)]
  | (k', v') :: rest => if k' = k then (k, v) :: rest else (k', v') :: mapSet rest k v

def mapDelete (m : Calendar) (k : String) : Calendar :=
  match m with
  | [] => []
  | (k', v') :: rest => if k' = k then rest else (k', v') :: mapDelete rest k

/-- ctx.tsx `getIntervals` (module-level helper, lines 345-350). -/
def getIntervals (ddI : Calendar) (date : Time) : List DateInterval :=
  (mapGet ddI (dayKey date)).getD []

/-- ctx.tsx `getDates` (context method, lines 147-154): one entry per
populated bucket.  The source wraps each key in `new Date(day)`; we model
the result by the day-key strings themselves. -/
def getDates (cal : Calendar) : List String :=
  cal.map (fun kv => kv.1)

/-- ctx.tsx `addInterval` (module-level helper, lines 321-344).
`dateInterval.start` defaults to the current time; the bucket key is
derived from the (pre-crop) `start`; the interval is cropped and appended.
The random identifier is assigned to the stored object after insertion in
the source, but the object is shared by reference, so the stored record
carries it; `fresh` stands for `Math.random().toString(36).substring(2,15)`. -/
def addInterval (ddI : Calendar) (dateInterval : DateInterval) (now : Time) (fresh : String) : Calendar :=
  let start := dateInterval.start.getD now
  let day := dayKey start
  let cropped := cropDayInterval { dateInterval with start := some start }
  let stored := { cropped with identifier := if cropped.identifier = "" then fresh else cropped.identifier }
  match mapGet ddI day with
  | some dayIntervals => mapSet ddI day (dayIntervals ++ [stored])
  | none => mapSet ddI day [stored]

/-- The record that `addInterval` stores for an interval whose `start`
resolves to `s`. -/
def storedOf (dateInterval : DateInterval) (s : Time) (fresh : String) : DateInterval :=
  let cropped := cropDayInterval { dateInterval with start := some s }
  { cropped with identifier := if cropped.identifier = "" then fresh else cropped.identifier }

/-- Closing pass of `addIntervalCalendar` (ctx.tsx lines 106-117): give
every running interval (`!interval.end`) the end time `t`. -/
def closeRunning (l : List DateInterval) (t : Time) : List DateInterval :=
  l.map (fun iv => if iv.«end».isNone then { iv with «end» := some t } else iv)

/-- ctx.tsx `addIntervalCalendar` (provider method, lines 93-133).
`nowDate` falls back to `showingDate` when the two disagree on the
day-of-month (`getDate()`).  When the single-running toggle is on and the
target bucket holds a running interval, the source closes the running
intervals by in-place slot assignment into the live bucket array (and
re-`set`s the same key), after which the module-level `addInterval` runs on
the mutated map.  With `start` absent the source would derive the re-`set`
key from an Invalid Date; the in-place mutation still lands in the
`nowDate` bucket, which is what we model (the junk "Invalid Date" key is
not modelled; all claims concern intervals with a present `start`). -/
def addIntervalCalendar (isStopLastIntervalOnAdd : Bool) (showingDate now : Time)
    (cal : Calendar) (dateInterval : DateInterval) (fresh : String) : Calendar :=
  let nowDate := if showingDate.day ≠ now.day then showingDate else now
  let cal1 :=
    if isStopLastIntervalOnAdd then
      let targetDate := dateInterval.start.getD nowDate
      let currentIntervals := getIntervals cal targetDate
      let hasBeenModified := currentIntervals.any (fun iv => iv.«end».isNone)
      if hasBeenModified then
        mapSet cal (dayKey targetDate) (closeRunning currentIntervals (cropDateToHoursMinutes nowDate))
      else cal
    else cal
  addInterval cal1 dateInterval now fresh

/-- ctx.tsx `canResumeInterval` (lines 352-365): no end, or less than a
minute has passed since the end. -/
def canResumeInterval (dateInterval : DateInterval) (now : Time) : Bool :=
  match dateInterval.«end» with
  | none => true
  | some e => getTime now - getTime e < 60000

/-- In-place `existingIntervals[index].end = e` on a bucket list. -/
def setEndAt (l : List DateInterval) (i : Nat) (e : Option Time) : List DateInterval :=
  match l, i with
  | [], _ => []
  | x :: xs, 0 => { x with «end» := e } :: xs
  | _x :: xs, n + 1 => _x :: setEndAt xs n e

/-- ctx.tsx `resumeInterval` (context method, lines 155-192).  Returns the
source's `string | null` as `Option String` together with the resulting
calendar.  In the fast-resume branch with `start` absent the source would
look up the "Invalid Date" key, find nothing and leave the store unchanged,
which is what the `none` case models. -/
def resumeInterval (isStopLastIntervalOnAdd : Bool) (showingDate now : Time)
    (cal : Calendar) (dateInterval : DateInterval) (fresh : String) : Option String × Calendar :=
  match dateInterval.«end» with
  | none => (none, cal)
  | some _ =>
    if canResumeInterval dateInterval now then
      match dateInterval.start with
      | none => (some dateInterval.identifier, cal)
      | some s =>
        let day := dayKey s
        let existingIntervals := (mapGet cal day).getD []
        match existingIntervals.findIdx? (fun iv => iv.identifier == dateInterval.identifier) with
        | some index => (some dateInterval.identifier, mapSet cal day (setEndAt existingIntervals index none))
        | none => (some dateInterval.identifier, cal)
    else
      let newInterval : DateInterval :=
        { identifier := fresh
          start := some (cropDateToHoursMinutes now)
          «end» := none
          msg := dateInterval.msg }
      (some fresh, addIntervalCalendar isStopLastIntervalOnAdd showingDate now cal newInterval fresh)

/-- ctx.tsx `stopInterval` (context method, lines 193-220).  Note the
source returns `croppedInterval.identifier` on the not-found path as well
(the `return` sits after the `if`/`else`); only the already-closed check
returns `null`. -/
def stopInterval (cal : Calendar) (dateInterval : DateInterval) (now : Time) : Option String × Calendar :=
  match dateInterval.«end» with
  | some _ => (none, cal)
  | none =>
    match dateInterval.start with
    | none => (some dateInterval.identifier, cal)
    | some s =>
      let day := dayKey s
      let existingIntervals := (mapGet cal day).getD []
      match existingIntervals.findIdx? (fun iv => iv.identifier == dateInterval.identifier) with
      | some index =>
        (some dateInterval.identifier,
          mapSet cal day (setEndAt existingIntervals index (some (cropDateToHoursMinutes now))))
      | none => (some dateInterval.identifier, cal)

/-- ctx.tsx `deleteInterval` (context method, lines 224-251).  Errors are
returned as strings; success returns `null` (modelled `none`). -/
def deleteInterval (cal : Calendar) (dateInterval : DateInterval) : Option String × Calendar :=
  match dateInterval.start with
  | none => (some "Start date is required", cal)
  | some s =>
    let day := dayKey s
    let existingIntervals := (mapGet cal day).getD []
    if existingIntervals = [] then
      (some ("No intervals found for the specified date : " ++ day), cal)
    else
      match existingIntervals.findIdx? (fun iv => iv.identifier == dateInterval.identifier) with
      | some index =>
        let remaining := existingIntervals.eraseIdx index
        if remaining = [] then (none, mapDelete cal day)
        else (none, mapSet cal day remaining)
      | none => (some "Interval not found", cal)

/-- First-occurrence deduplication, models `Array.from(new Set(list))`. -/
def dedupFirstAux (seen : List String) : List String → List String
  | [] => []
  | x :: xs => if x ∈ seen then dedupFirstAux seen xs else x :: dedupFirstAux (x :: seen) xs

def dedupFirst (l : List String) : List String :=
  dedupFirstAux [] l

/-- Models `Array.prototype.sort()` on strings: the sorted stable
permutation under lexicographic order. -/
def sortStrings (l : List String) : List String :=
  List.insertionSort (fun a b => a ≤ b) l

/-- ctx.tsx `updateInterval` (context method, lines 252-289).  Returns the
source's result together with the new calendar and the new `descriptions`
state (the source's `setDescriptions`). -/
def updateInterval (cal : Calendar) (descriptions : List String) (dateInterval : DateInterval) :
    Option String × Calendar × List String :=
  match dateInterval.start with
  | none => (some "Start date is required", cal, descriptions)
  | some s =>
    let croppedInterval := cropDayInterval dateInterval
    let day := dayKey s
    let existingIntervals := (mapGet cal day).getD []
    if existingIntervals = [] then
      (some ("No intervals found for the specified date : " ++ day), cal, descriptions)
    else
      match existingIntervals.findIdx? (fun iv => iv.identifier == dateInterval.identifier) with
      | none => (some "Interval not found", cal, descriptions)
      | some index =>
        let updated := existingIntervals.set index croppedInterval
        let newCal := mapSet cal day updated
        let newDescriptions := updated.map (fun iv => iv.msg)
        let descriptions' :=
          if newDescriptions ≠ descriptions then sortStrings (dedupFirst newDescriptions)
          else descriptions
        (some croppedInterval.identifier, newCal, descriptions')

/-- ctx.tsx `getDescriptions` (context method, lines 221-223). -/
def getDescriptions (descriptions : List String) : List String :=
  if descriptions.length > 0 then descriptions else ["No descriptions available"]

/-!
Durable-storage migration model (src/unnamed/part_001, the normalized
schema-2 storage module: `migrateFromLocalStorage`, lines 242-297, with
`getOrCreateTag`, lines 91-110).  `localStorage.getItem("calendar")` is
modelled as `Option (Option FlatCalendar)`: `none` when the key is absent,
`some none` when the stored string is present but `JSON.parse` throws, and
`some (some obj)` when it parses to the flat day-keyed object (the parsed
shape asserted by the source's cast).  IndexedDB auto-increment keys are
modelled by explicit counters.
-/

structure LegacyInterval where
  identifier : String
  start : Time
  «end» : Option Time
  msg : String
deriving DecidableEq, Repr

abbrev FlatCalendar := List (String × List LegacyInterval)

structure IntervalRecord where
  id : Nat
  identifier : String
  start : Time
  «end» : Option Time
  tagId : Option Nat
  date : String
deriving DecidableEq, Repr

structure CalendarDB where
  tags : List (Nat × String)
  nextTagId : Nat
  intervals : List IntervalRecord
  nextIntervalId : Nat
deriving DecidableEq, Repr

structure MigrationState where
  localStorageCalendar : Option (Option FlatCalendar)
  db : CalendarDB
deriving DecidableEq, Repr

/-- part_001 `getOrCreateTag`: look up the tag by name, creating it with a
fresh auto-increment id when absent; the empty name maps to id 0. -/
def getOrCreateTag (db : CalendarDB) (tagName : String) : Nat × CalendarDB :=
  if tagName = "" then (0, db)
  else
    match db.tags.find? (fun t => t.2 == tagName) with
    | some t => (t.1, db)
    | none =>
      (db.nextTagId,
        { db with tags := db.tags ++ [(db.nextTagId, tagName)], nextTagId := db.nextTagId + 1 })

/-- One loop body of the migration: resolve the tag (`interval.msg ?
getOrCreateTag(...) : null`) and `db.add` the interval record. -/
def migrateOne (db : CalendarDB) (date : String) (iv : LegacyInterval) : CalendarDB :=
  let resolved := if iv.msg ≠ "" then
      let r := getOrCreateTag db iv.msg
      (some r.1, r.2)
    else (none, db)
  let db1 := resolved.2
  { db1 with
      intervals := db1.intervals ++
        [{ id := db1.nextIntervalId, identifier := iv.identifier, start := iv.start,
           «end» := iv.«end», tagId := resolved.1, date := date }]
      nextIntervalId := db1.nextIntervalId + 1 }

/-- part_001 `migrateFromLocalStorage`: no-op when the legacy key is
absent; when the database already holds interval records the legacy key is
deleted and migration is skipped; a `JSON.parse` failure is caught and
leaves everything unchanged; otherwise every legacy interval is written to
the normalized store and the legacy key is deleted. -/
def migrateFromLocalStorage (s : MigrationState) : Bool × MigrationState :=
  match s.localStorageCalendar with
  | none => (false, s)
  | some stored =>
    if s.db.intervals ≠ [] then
      (false, { s with localStorageCalendar := none })
    else
      match stored with
      | none => (false, s)
      | some obj =>
        let db' := obj.foldl (fun db kv => kv.2.foldl (fun db iv => migrateOne db kv.1 iv) db) s.db
        (true, { localStorageCalendar := none, db := db' })

/-! Helper lemmas about the map model and the store operations. -/

theorem mapGet_mapSet_self (m : Calendar) (k : String) (v : List DateInterval) :
    mapGet (mapSet m k v) k = some v := by
  induction m with
  | nil => simp [mapSet, mapGet]
  | cons kv rest ih =>
    obtain ⟨k', v'⟩ := kv
    by_cases h : k' = k <;> simp [mapSet, mapGet, h, ih]

theorem mapGet_mapSet_ne (m : Calendar) (k k' : String) (v : List DateInterval)
    (h : k' ≠ k) : mapGet (mapSet m k v) k' = mapGet m k' := by
  induction m with
  | nil => simp [mapSet, mapGet, Ne.symm h]
  | cons kv rest ih =>
    obtain ⟨k0, v0⟩ := kv
    by_cases h0 : k0 = k
    · subst h0
      simp [mapSet, mapGet, Ne.symm h]
    · simp [mapSet, mapGet, h0, ih]

theorem not_mem_getDates_mapDelete (m : Calendar) (k : String)
    (h : (m.map Prod.fst).Nodup) : k ∉ getDates (mapDelete m k) := by
  induction m with
  | nil => simp [mapDelete, getDates]
  | cons kv rest ih =>
    obtain ⟨k0, v0⟩ := kv
    simp only [List.map_cons, List.nodup_cons] at h
    by_cases h0 : k0 = k
    · subst h0
      simpa [mapDelete, getDates] using h.1
    · intro hmem
      simp only [mapDelete, getDates, if_neg h0, List.map_cons, List.mem_cons] at hmem
      rcases hmem with h1 | h1
      · exact h0 h1.symm
      · exact ih h.2 h1

theorem dayKey_cropDateToHoursMinutes (t : Time) :
    dayKey (cropDateToHoursMinutes t) = dayKey t := rfl

/-- Unfolding of `addInterval` at the bucket of the interval's effective
`start`: the given `start` when present, the current time when absent. -/
theorem getIntervals_addInterval (cal : Calendar) (di : DateInterval) (now : Time)
    (fresh : String) (s : Time)
    (hs : di.start = some s ∨ (di.start = none ∧ s = now)) :
    getIntervals (addInterval cal di now fresh) s
      = getIntervals cal s ++ [storedOf di s fresh] := by
  have hgetD : di.start.getD now = s := by
    rcases hs with h | ⟨h, rfl⟩ <;> simp [h]
  unfold addInterval storedOf getIntervals
  rw [hgetD]
  cases h : mapGet cal (dayKey s) <;>
    simp [h, mapGet_mapSet_self]

theorem closeRunning_of_no_running (l : List DateInterval) (t : Time)
    (h : l.any (fun iv => iv.«end».isNone) = false) : closeRunning l t = l := by
  unfold closeRunning
  rw [List.any_eq_false] at h
  rw [List.map_congr_left (g := id) ?_, List.map_id]
  intro iv hiv
  have := h iv hiv
  simp only [Bool.not_eq_true] at this
  simp [this]

/-- Unfolding of `addIntervalCalendar` at the bucket of the interval's
`start`, for an arbitrary showing date: the close time is the source's
`nowDate` — the showing date when its day-of-month differs from the
current one, the current time otherwise. -/
theorem getIntervals_addIntervalCalendar_general (toggle : Bool) (showingDate now : Time)
    (cal : Calendar) (di : DateInterval) (fresh : String) (s : Time)
    (hs : di.start = some s) :
    getIntervals (addIntervalCalendar toggle showingDate now cal di fresh) s
      = (if toggle then
           closeRunning (getIntervals cal s)
             (cropDateToHoursMinutes (if showingDate.day ≠ now.day then showingDate else now))
         else getIntervals cal s) ++ [storedOf di s fresh] := by
  unfold addIntervalCalendar
  rw [hs]
  simp only [Option.getD_some]
  cases toggle with
  | false =>
    simpa using getIntervals_addInterval cal di now fresh s (Or.inl hs)
  | true =>
    simp only [if_pos trivial, if_true]
    cases hmod : (getIntervals cal s).any (fun iv => iv.«end».isNone) with
    | false =>
      rw [if_neg (by simp [hmod])]
      rw [closeRunning_of_no_running _ _ hmod]
      simpa using getIntervals_addInterval cal di now fresh s (Or.inl hs)
    | true =>
      rw [if_pos (by simp [hmod])]
      rw [getIntervals_addInterval _ di now fresh s (Or.inl hs)]
      unfold getIntervals
      simp [mapGet_mapSet_self]

/-- Specialization to a showing date on the current day-of-month, where
the close time is the current time. -/
theorem getIntervals_addIntervalCalendar (toggle : Bool) (showingDate now : Time)
    (cal : Calendar) (di : DateInterval) (fresh : String) (s : Time)
    (hs : di.start = some s) (hday : showingDate.day = now.day) :
    getIntervals (addIntervalCalendar toggle showingDate now cal di fresh) s
      = (if toggle then closeRunning (getIntervals cal s) (cropDateToHoursMinutes now)
         else getIntervals cal s) ++ [storedOf di s fresh] := by
  rw [getIntervals_addIntervalCalendar_general toggle showingDate now cal di fresh s hs]
  rw [hday]
  simp

/-- Claim C3: for every pair of timestamps that fall on the same calendar
day (regardless of their time-of-day components), the day-bucket key
derived from them is identical, so both map to the same bucket. -/
theorem dayKey_same_day (t1 t2 : Time)
    (hy : t1.year = t2.year) (hm : t1.month = t2.month) (hd : t1.day = t2.day) :
    dayKey t1 = dayKey t2 ∧ ∀ cal : Calendar, getIntervals cal t1 = getIntervals cal t2 := by
  have hk : dayKey t1 = dayKey t2 := by
    unfold dayKey setMidnight toDateString
    rw [hy, hm, hd]
  exact ⟨hk, fun cal => by unfold getIntervals; rw [hk]⟩

/-- Witness for C3 at two concrete times of the same day. -/
theorem dayKey_same_day_witness :
    dayKey ⟨2024, 1, 15, 9, 30, 0, 0⟩ = dayKey ⟨2024, 1, 15, 23, 59, 59, 999⟩
      ∧ getIntervals [] ⟨2024, 1, 15, 9, 30, 0, 0⟩ = getIntervals [] ⟨2024, 1, 15, 23, 59, 59, 999⟩ := by
  have h := dayKey_same_day ⟨2024, 1, 15, 9, 30, 0, 0⟩ ⟨2024, 1, 15, 23, 59, 59, 999⟩ rfl rfl rfl
  exact ⟨h.1, h.2 []⟩

/-- Claim C9: the legacy-to-current migration is idempotent — for every
store state, running `migrateFromLocalStorage` twice leaves the durable
store in the same final state as running it once (the legacy source record
is deleted after the first successful run, so the second run finds no data
to migrate). -/
theorem migrateFromLocalStorage_idempotent (s : MigrationState) :
    (migrateFromLocalStorage (migrateFromLocalStorage s).2).2 = (migrateFromLocalStorage s).2 := by
  obtain ⟨leg, db⟩ := s
  cases leg with
  | none => rfl
  | some stored =>
    by_cases hdb : db.intervals = []
    · cases stored with
      | none =>
        simp [migrateFromLocalStorage, hdb]
      | some obj =>
        simp [migrateFromLocalStorage, hdb]
    · cases stored <;> simp [migrateFromLocalStorage, hdb]

/-! Identifier bookkeeping for the uniqueness part of claim C4. -/

/-- All identifiers stored anywhere in the calendar. -/
def allIdentifiers : Calendar → List String
  | [] => []
  | kv :: rest => kv.2.map (fun iv => iv.identifier) ++ allIdentifiers rest

theorem mem_allIdentifiers_of_mapGet (cal : Calendar) (k : String) (b : List DateInterval)
    (h : mapGet cal k = some b) (x : String) (hx : x ∈ b.map (fun iv => iv.identifier)) :
    x ∈ allIdentifiers cal := by
  induction cal with
  | nil => simp [mapGet] at h
  | cons kv rest ih =>
    obtain ⟨k0, v0⟩ := kv
    by_cases h0 : k0 = k
    · simp only [mapGet, if_pos h0] at h
      obtain rfl : v0 = b := by injection h
      simp [allIdentifiers, hx]
    · simp only [mapGet, if_neg h0] at h
      simp [allIdentifiers, ih h]

theorem count_allIdentifiers_mapSet (cal : Calendar) (k : String) (v : List DateInterval)
    (x : String) (h : x ∉ allIdentifiers cal) :
    (allIdentifiers (mapSet cal k v)).count x = (v.map (fun iv => iv.identifier)).count x := by
  induction cal with
  | nil => simp [mapSet, allIdentifiers]
  | cons kv rest ih =>
    obtain ⟨k0, v0⟩ := kv
    simp only [allIdentifiers, List.mem_append] at h
    push_neg at h
    by_cases h0 : k0 = k
    · simp only [mapSet, if_pos h0, allIdentifiers, List.count_append]
      have : (allIdentifiers rest).count x = 0 := by
        rw [List.count_eq_zero]
        exact h.2
      omega
    · simp only [mapSet, if_neg h0, allIdentifiers, List.count_append, ih h.2]
      have : (v0.map (fun iv => iv.identifier)).count x = 0 := by
        rw [List.count_eq_zero]
        exact h.1
      omega

/-- Claim C4: every interval passed to `addInterval` subsequently appears
in `getIntervals` of its (stored, minute-cropped) `start`, appended to the
bucket for `dayKey(start)` (the bucket being created when absent), carrying
a non-empty identifier that occurs exactly once in the store — the fresh
generated identifier when the given interval had none — with `start`/`end`
normalized to minute precision.  The effective start `s` is the given
`start` when present and the current time when absent (the `hs`
disjunction covers both, so the defaulting path — the UI's
`addInterval({})` — is included: there the stored `start` is
`cropDateToHoursMinutes now`).  Freshness and non-emptiness of the
effective identifier are hypotheses standing for the `Math.random`
generator. -/
theorem addInterval_spec (cal : Calendar) (di : DateInterval) (now : Time) (fresh : String)
    (s : Time) (hs : di.start = some s ∨ (di.start = none ∧ s = now))
    (hne : (if di.identifier = "" then fresh else di.identifier) ≠ "")
    (hun : (if di.identifier = "" then fresh else di.identifier) ∉ allIdentifiers cal) :
    getIntervals (addInterval cal di now fresh) (cropDateToHoursMinutes s)
        = getIntervals cal s ++ [storedOf di s fresh]
      ∧ storedOf di s fresh ∈ getIntervals (addInterval cal di now fresh) (cropDateToHoursMinutes s)
      ∧ (storedOf di s fresh).identifier = (if di.identifier = "" then fresh else di.identifier)
      ∧ (storedOf di s fresh).identifier ≠ ""
      ∧ (storedOf di s fresh).start = some (cropDateToHoursMinutes s)
      ∧ (storedOf di s fresh).«end» = di.«end».map cropDateToHoursMinutes
      ∧ (allIdentifiers (addInterval cal di now fresh)).count (storedOf di s fresh).identifier = 1 := by
  have hid : (storedOf di s fresh).identifier = (if di.identifier = "" then fresh else di.identifier) := by
    simp [storedOf, cropDayInterval]
  have hkey : getIntervals (addInterval cal di now fresh) (cropDateToHoursMinutes s)
      = getIntervals (addInterval cal di now fresh) s := by
    unfold getIntervals
    rw [dayKey_cropDateToHoursMinutes]
  have hbucket := getIntervals_addInterval cal di now fresh s hs
  refine ⟨hkey.trans hbucket, ?_, hid, hid ▸ hne, ?_, ?_, ?_⟩
  · rw [hkey, hbucket]
    simp
  · simp [storedOf, cropDayInterval]
  · simp [storedOf, cropDayInterval]
  · have hun' : (storedOf di s fresh).identifier ∉ allIdentifiers cal := by
      rw [hid]; exact hun
    have hgetD : di.start.getD now = s := by
      rcases hs with h | ⟨h, rfl⟩ <;> simp [h]
    have hadd : addInterval cal di now fresh
        = match mapGet cal (dayKey s) with
          | some dayIntervals => mapSet cal (dayKey s) (dayIntervals ++ [storedOf di s fresh])
          | none => mapSet cal (dayKey s) [storedOf di s fresh] := by
      unfold addInterval
      rw [hgetD]
      rfl
    rw [hadd]
    cases hb : mapGet cal (dayKey s) with
    | some dayIntervals =>
      show (allIdentifiers (mapSet cal (dayKey s) (dayIntervals ++ [storedOf di s fresh]))).count
        (storedOf di s fresh).identifier = 1
      rw [count_allIdentifiers_mapSet cal (dayKey s) _ _ hun']
      rw [List.map_append, List.count_append]
      have h1 : (dayIntervals.map (fun iv => iv.identifier)).count
          (storedOf di s fresh).identifier = 0 := by
        rw [List.count_eq_zero]
        intro hmem
        exact hun' (mem_allIdentifiers_of_mapGet cal _ _ hb _ hmem)
      rw [h1]
      simp
    | none =>
      show (allIdentifiers (mapSet cal (dayKey s) [storedOf di s fresh])).count
        (storedOf di s fresh).identifier = 1
      rw [count_allIdentifiers_mapSet cal (dayKey s) _ _ hun']
      simp

/-- Witness for C4 at two concrete intervals with no given identifier:
one with a present `start` and one with `start` absent (the UI's
`addInterval({})` path), where the stored `start` defaults to the cropped
current time. -/
theorem addInterval_spec_witness :
    (getIntervals (addInterval [] { identifier := "", start := some ⟨2024, 5, 10, 9, 30, 15, 250⟩, «end» := none, msg := "work" } ⟨2024, 5, 10, 9, 31, 0, 0⟩ "k3j9x")
        (cropDateToHoursMinutes ⟨2024, 5, 10, 9, 30, 15, 250⟩)
      = [] ++ [storedOf { identifier := "", start := some ⟨2024, 5, 10, 9, 30, 15, 250⟩, «end» := none, msg := "work" } ⟨2024, 5, 10, 9, 30, 15, 250⟩ "k3j9x"]
    ∧ (allIdentifiers (addInterval [] { identifier := "", start := some ⟨2024, 5, 10, 9, 30, 15, 250⟩, «end» := none, msg := "work" } ⟨2024, 5, 10, 9, 31, 0, 0⟩ "k3j9x")).count
        (storedOf { identifier := "", start := some ⟨2024, 5, 10, 9, 30, 15, 250⟩, «end» := none, msg := "work" } ⟨2024, 5, 10, 9, 30, 15, 250⟩ "k3j9x").identifier = 1)
    ∧ (getIntervals (addInterval [] { identifier := "", start := none, «end» := none, msg := "" } ⟨2024, 5, 10, 9, 31, 40, 5⟩ "q7wms")
        (cropDateToHoursMinutes ⟨2024, 5, 10, 9, 31, 40, 5⟩)
      = [] ++ [storedOf { identifier := "", start := none, «end» := none, msg := "" } ⟨2024, 5, 10, 9, 31, 40, 5⟩ "q7wms"]
    ∧ (storedOf { identifier := "", start := none, «end» := none, msg := "" } ⟨2024, 5, 10, 9, 31, 40, 5⟩ "q7wms").start
        = some (cropDateToHoursMinutes ⟨2024, 5, 10, 9, 31, 40, 5⟩)) := by
  have h := addInterval_spec []
    { identifier := "", start := some ⟨2024, 5, 10, 9, 30, 15, 250⟩, «end» := none, msg := "work" }
    ⟨2024, 5, 10, 9, 31, 0, 0⟩ "k3j9x" ⟨2024, 5, 10, 9, 30, 15, 250⟩ (Or.inl rfl) (by decide) (by decide)
  have h2 := addInterval_spec []
    { identifier := "", start := none, «end» := none, msg := "" }
    ⟨2024, 5, 10, 9, 31, 40, 5⟩ "q7wms" ⟨2024, 5, 10, 9, 31, 40, 5⟩ (Or.inr ⟨rfl, rfl⟩) (by decide) (by decide)
  refine ⟨⟨?_, h.2.2.2.2.2.2⟩, ?_, h2.2.2.2.2.1⟩
  · have := h.1
    simpa using this
  · have := h2.1
    simpa using this

theorem getIntervals_crop (cal : Calendar) (t : Time) :
    getIntervals cal (cropDateToHoursMinutes t) = getIntervals cal t := by
  unfold getIntervals
  rw [dayKey_cropDateToHoursMinutes]

theorem setEndAt_eq_set (l : List DateInterval) (i : Nat) (x : DateInterval) (e : Option Time)
    (h : l[i]? = some x) : setEndAt l i e = l.set i { x with «end» := e } := by
  induction l generalizing i with
  | nil => simp at h
  | cons y ys ih =>
    cases i with
    | zero =>
      obtain rfl : y = x := by simpa using h
      simp [setEndAt]
    | succ n =>
      simp only [List.getElem?_cons_succ] at h
      simp [setEndAt, ih n h]

/-- Claim C1: for a Closed stored interval, `resumeInterval` within 60
seconds of its end clears `end` on the same stored record (the record keeps
its identifier, label and all other fields); after 61 or more seconds it
instead creates and adds a new interval with a fresh identifier, `start`
equal to the current time (minute-truncated), `end` absent and the same
label as the original, returning the fresh identifier.  `fresh` stands for
the randomly generated identifier (hypothesized distinct from the original
one). -/
theorem resumeInterval_spec (stopLast : Bool) (showingDate now : Time) (cal : Calendar)
    (di : DateInterval) (s e : Time) (fresh : String) (i : Nat) (rec : DateInterval)
    (hs : di.start = some s) (he : di.«end» = some e)
    (hfind : (getIntervals cal s).findIdx? (fun iv => iv.identifier == di.identifier) = some i)
    (hrec : (getIntervals cal s)[i]? = some rec)
    (hfresh : fresh ≠ di.identifier) (hday : showingDate.day = now.day) :
    (getTime now - getTime e < 60000 →
      resumeInterval stopLast showingDate now cal di fresh
        = (some di.identifier,
           mapSet cal (dayKey s) ((getIntervals cal s).set i { rec with «end» := none })))
    ∧ (61000 ≤ getTime now - getTime e →
      (resumeInterval stopLast showingDate now cal di fresh).1 = some fresh
      ∧ (resumeInterval stopLast showingDate now cal di fresh).1 ≠ some di.identifier
      ∧ getIntervals (resumeInterval stopLast showingDate now cal di fresh).2 now
          = (if stopLast then closeRunning (getIntervals cal now) (cropDateToHoursMinutes now)
             else getIntervals cal now)
            ++ [{ identifier := fresh, start := some (cropDateToHoursMinutes now), «end» := none,
                  msg := di.msg }]) := by
  constructor
  · intro hdiff
    have hcan : canResumeInterval di now = true := by
      unfold canResumeInterval
      rw [he]
      exact decide_eq_true hdiff
    unfold resumeInterval
    have hfind' : ((mapGet cal (dayKey s)).getD []).findIdx?
        (fun iv => iv.identifier == di.identifier) = some i := hfind
    have hset : setEndAt ((mapGet cal (dayKey s)).getD []) i none
        = ((mapGet cal (dayKey s)).getD []).set i { rec with «end» := none } :=
      setEndAt_eq_set _ i rec none hrec
    simp only [he, hs, hcan, eq_self_iff_true, if_true, hfind', hset]
    rfl
  · intro hdiff
    have hcan : canResumeInterval di now = false := by
      unfold canResumeInterval
      rw [he]
      simp only [decide_eq_false_iff_not, not_lt]
      omega
    have hres : resumeInterval stopLast showingDate now cal di fresh
        = (some fresh,
           addIntervalCalendar stopLast showingDate now cal
             { identifier := fresh, start := some (cropDateToHoursMinutes now), «end» := none,
               msg := di.msg } fresh) := by
      unfold resumeInterval
      rw [he, hcan]
      simp
    refine ⟨by rw [hres], by rw [hres]; simpa using fun hcontra => hfresh hcontra, ?_⟩
    rw [hres]
    have hb := getIntervals_addIntervalCalendar stopLast showingDate now cal
      { identifier := fresh, start := some (cropDateToHoursMinutes now), «end» := none,
        msg := di.msg } fresh (cropDateToHoursMinutes now) rfl hday
    have hstored : storedOf
        { identifier := fresh, start := some (cropDateToHoursMinutes now), «end» := none,
          msg := di.msg } (cropDateToHoursMinutes now) fresh
        = { identifier := fresh, start := some (cropDateToHoursMinutes now), «end» := none,
            msg := di.msg } := by
      simp [storedOf, cropDayInterval, cropDateToHoursMinutes]
    rw [getIntervals_crop] at hb
    rw [getIntervals_crop] at hb
    rw [hb, hstored]

/-- Witness for C1: a closed interval stored at index 0; resuming 30
seconds after its end clears the end on the stored record; resuming 120
seconds after its end returns a fresh identifier and appends a new running
interval with the same label. -/
theorem resumeInterval_spec_witness :
    resumeInterval true ⟨2024, 5, 10, 9, 30, 30, 0⟩ ⟨2024, 5, 10, 9, 30, 30, 0⟩
        [(dayKey ⟨2024, 5, 10, 9, 0, 0, 0⟩, [{ identifier := "abc", start := some ⟨2024, 5, 10, 9, 0, 0, 0⟩, «end» := some ⟨2024, 5, 10, 9, 30, 0, 0⟩, msg := "work" }])]
        { identifier := "abc", start := some ⟨2024, 5, 10, 9, 0, 0, 0⟩, «end» := some ⟨2024, 5, 10, 9, 30, 0, 0⟩, msg := "work" } "zzz"
      = (some "abc",
         mapSet [(dayKey ⟨2024, 5, 10, 9, 0, 0, 0⟩, [{ identifier := "abc", start := some ⟨2024, 5, 10, 9, 0, 0, 0⟩, «end» := some ⟨2024, 5, 10, 9, 30, 0, 0⟩, msg := "work" }])]
           (dayKey ⟨2024, 5, 10, 9, 0, 0, 0⟩)
           ((getIntervals [(dayKey ⟨2024, 5, 10, 9, 0, 0, 0⟩, [{ identifier := "abc", start := some ⟨2024, 5, 10, 9, 0, 0, 0⟩, «end» := some ⟨2024, 5, 10, 9, 30, 0, 0⟩, msg := "work" }])] ⟨2024, 5, 10, 9, 0, 0, 0⟩).set 0
             { identifier := "abc", start := some ⟨2024, 5, 10, 9, 0, 0, 0⟩, «end» := none, msg := "work" }))
      ∧ (resumeInterval true ⟨2024, 5, 10, 9, 32, 0, 0⟩ ⟨2024, 5, 10, 9, 32, 0, 0⟩
          [(dayKey ⟨2024, 5, 10, 9, 0, 0, 0⟩, [{ identifier := "abc", start := some ⟨2024, 5, 10, 9, 0, 0, 0⟩, «end» := some ⟨2024, 5, 10, 9, 30, 0, 0⟩, msg := "work" }])]
          { identifier := "abc", start := some ⟨2024, 5, 10, 9, 0, 0, 0⟩, «end» := some ⟨2024, 5, 10, 9, 30, 0, 0⟩, msg := "work" } "zzz").1 = some "zzz" := by
  constructor
  · have h := (resumeInterval_spec true ⟨2024, 5, 10, 9, 30, 30, 0⟩ ⟨2024, 5, 10, 9, 30, 30, 0⟩
      [(dayKey ⟨2024, 5, 10, 9, 0, 0, 0⟩, [{ identifier := "abc", start := some ⟨2024, 5, 10, 9, 0, 0, 0⟩, «end» := some ⟨2024, 5, 10, 9, 30, 0, 0⟩, msg := "work" }])]
      { identifier := "abc", start := some ⟨2024, 5, 10, 9, 0, 0, 0⟩, «end» := some ⟨2024, 5, 10, 9, 30, 0, 0⟩, msg := "work" }
      ⟨2024, 5, 10, 9, 0, 0, 0⟩ ⟨2024, 5, 10, 9, 30, 0, 0⟩ "zzz" 0
      { identifier := "abc", start := some ⟨2024, 5, 10, 9, 0, 0, 0⟩, «end» := some ⟨2024, 5, 10, 9, 30, 0, 0⟩, msg := "work" }
      rfl rfl (by decide) (by decide) (by decide) rfl).1 (by decide)
    exact h
  · exact ((resumeInterval_spec true ⟨2024, 5, 10, 9, 32, 0, 0⟩ ⟨2024, 5, 10, 9, 32, 0, 0⟩
      [(dayKey ⟨2024, 5, 10, 9, 0, 0, 0⟩, [{ identifier := "abc", start := some ⟨2024, 5, 10, 9, 0, 0, 0⟩, «end» := some ⟨2024, 5, 10, 9, 30, 0, 0⟩, msg := "work" }])]
      { identifier := "abc", start := some ⟨2024, 5, 10, 9, 0, 0, 0⟩, «end» := some ⟨2024, 5, 10, 9, 30, 0, 0⟩, msg := "work" }
      ⟨2024, 5, 10, 9, 0, 0, 0⟩ ⟨2024, 5, 10, 9, 30, 0, 0⟩ "zzz" 0
      { identifier := "abc", start := some ⟨2024, 5, 10, 9, 0, 0, 0⟩, «end» := some ⟨2024, 5, 10, 9, 30, 0, 0⟩, msg := "work" }
      rfl rfl (by decide) (by decide) (by decide) rfl).2 (by decide)).1

/-- Counterexample to claim C5: when no record with the interval's
identifier is present in the bucket (here the store is empty),
`stopInterval` does not fail with a NotFound error — it returns the
interval's identifier, the same value it returns on success, leaving the
calendar unchanged (ctx.tsx line 219 sits after the `if`/`else`). -/
theorem stopInterval_notfound_counterexample :
    stopInterval [] { identifier := "x", start := some ⟨2024, 5, 10, 9, 0, 0, 0⟩, «end» := none, msg := "" } ⟨2024, 5, 10, 9, 5, 0, 0⟩
      = (some "x", [])
    ∧ (stopInterval [] { identifier := "x", start := some ⟨2024, 5, 10, 9, 0, 0, 0⟩, «end» := none, msg := "" } ⟨2024, 5, 10, 9, 5, 0, 0⟩).1 ≠ none := by
  constructor
  · rfl
  · simp [stopInterval, getIntervals, mapGet]

/-- Claim C5 as amended: `stopInterval` succeeds only from Running — on a
Running interval found by identifier in the bucket derived from its
`start` it sets `end` to the current time (minute-truncated) and returns
the identifier; it fails (returning `null`, the InvalidState case) if the
interval already has an `end`; but when no record with that identifier is
present in the bucket it does NOT report NotFound: it leaves the calendar
unchanged and still returns the identifier. -/
theorem stopInterval_spec (cal : Calendar) (di : DateInterval) (now : Time) :
    (∀ e, di.«end» = some e → stopInterval cal di now = (none, cal))
    ∧ (∀ s i rec, di.«end» = none → di.start = some s →
        (getIntervals cal s).findIdx? (fun iv => iv.identifier == di.identifier) = some i →
        (getIntervals cal s)[i]? = some rec →
        stopInterval cal di now
          = (some di.identifier,
             mapSet cal (dayKey s)
               ((getIntervals cal s).set i { rec with «end» := some (cropDateToHoursMinutes now) })))
    ∧ (∀ s, di.«end» = none → di.start = some s →
        (getIntervals cal s).findIdx? (fun iv => iv.identifier == di.identifier) = none →
        stopInterval cal di now = (some di.identifier, cal)) := by
  refine ⟨?_, ?_, ?_⟩
  · intro e he
    unfold stopInterval
    simp only [he]
  · intro s i rec hend hstart hfind hrec
    have hfind' : ((mapGet cal (dayKey s)).getD []).findIdx?
        (fun iv => iv.identifier == di.identifier) = some i := hfind
    have hset : setEndAt ((mapGet cal (dayKey s)).getD []) i (some (cropDateToHoursMinutes now))
        = ((mapGet cal (dayKey s)).getD []).set i
            { rec with «end» := some (cropDateToHoursMinutes now) } :=
      setEndAt_eq_set _ i rec _ hrec
    unfold stopInterval
    simp only [hend, hstart, hfind', hset]
    rfl
  · intro s hend hstart hfind
    have hfind' : ((mapGet cal (dayKey s)).getD []).findIdx?
        (fun iv => iv.identifier == di.identifier) = none := hfind
    unfold stopInterval
    simp only [hend, hstart, hfind']

/-- Witness for the amended C5 at a concrete Running interval stored at
index 0: stopping sets its end to the cropped current time. -/
theorem stopInterval_spec_witness :
    stopInterval [(dayKey ⟨2024, 5, 10, 9, 0, 0, 0⟩, [{ identifier := "abc", start := some ⟨2024, 5, 10, 9, 0, 0, 0⟩, «end» := none, msg := "work" }])]
        { identifier := "abc", start := some ⟨2024, 5, 10, 9, 0, 0, 0⟩, «end» := none, msg := "work" } ⟨2024, 5, 10, 9, 30, 20, 5⟩
      = (some "abc",
         mapSet [(dayKey ⟨2024, 5, 10, 9, 0, 0, 0⟩, [{ identifier := "abc", start := some ⟨2024, 5, 10, 9, 0, 0, 0⟩, «end» := none, msg := "work" }])]
           (dayKey ⟨2024, 5, 10, 9, 0, 0, 0⟩)
           ((getIntervals [(dayKey ⟨2024, 5, 10, 9, 0, 0, 0⟩, [{ identifier := "abc", start := some ⟨2024, 5, 10, 9, 0, 0, 0⟩, «end» := none, msg := "work" }])] ⟨2024, 5, 10, 9, 0, 0, 0⟩).set 0
             { identifier := "abc", start := some ⟨2024, 5, 10, 9, 0, 0, 0⟩,
               «end» := some (cropDateToHoursMinutes ⟨2024, 5, 10, 9, 30, 20, 5⟩), msg := "work" })) :=
  (stopInterval_spec
    [(dayKey ⟨2024, 5, 10, 9, 0, 0, 0⟩, [{ identifier := "abc", start := some ⟨2024, 5, 10, 9, 0, 0, 0⟩, «end» := none, msg := "work" }])]
    { identifier := "abc", start := some ⟨2024, 5, 10, 9, 0, 0, 0⟩, «end» := none, msg := "work" }
    ⟨2024, 5, 10, 9, 30, 20, 5⟩).2.1 ⟨2024, 5, 10, 9, 0, 0, 0⟩ 0
    { identifier := "abc", start := some ⟨2024, 5, 10, 9, 0, 0, 0⟩, «end» := none, msg := "work" }
    rfl rfl (by decide) (by decide)

/-- Counterexample to claim C6: a successful deletion (the record is
removed and the emptied day key disappears) returns `null` (`none`), not
the deleted interval's identifier (ctx.tsx line 247 `return null`). -/
theorem deleteInterval_returns_null_counterexample :
    deleteInterval
        [(dayKey ⟨2024, 5, 10, 9, 0, 0, 0⟩, [{ identifier := "a", start := some ⟨2024, 5, 10, 9, 0, 0, 0⟩, «end» := none, msg := "" }])]
        { identifier := "a", start := some ⟨2024, 5, 10, 9, 0, 0, 0⟩, «end» := none, msg := "" }
      = (none, [])
    ∧ (deleteInterval
        [(dayKey ⟨2024, 5, 10, 9, 0, 0, 0⟩, [{ identifier := "a", start := some ⟨2024, 5, 10, 9, 0, 0, 0⟩, «end» := none, msg := "" }])]
        { identifier := "a", start := some ⟨2024, 5, 10, 9, 0, 0, 0⟩, «end» := none, msg := "" }).1
      ≠ some "a" := by
  constructor
  · rfl
  · intro h
    simp [deleteInterval, getIntervals, mapGet] at h

/-- Claim C6 as amended: `deleteInterval` on success removes the matched
record from the bucket derived from its `start` and — removing the day key
entirely when the bucket empties, so the day no longer appears in
`getDates()` — returns `null` (`none`), not the deleted interval's
identifier; it fails with the InvalidInput error string when `start` is
absent, and with the NotFound error strings when the bucket has no
intervals or no record matches the identifier. -/
theorem deleteInterval_spec (cal : Calendar) (di : DateInterval) :
    (di.start = none → deleteInterval cal di = (some "Start date is required", cal))
    ∧ (∀ s, di.start = some s → getIntervals cal s = [] →
        deleteInterval cal di
          = (some ("No intervals found for the specified date : " ++ dayKey s), cal))
    ∧ (∀ s, di.start = some s → getIntervals cal s ≠ [] →
        (getIntervals cal s).findIdx? (fun iv => iv.identifier == di.identifier) = none →
        deleteInterval cal di = (some "Interval not found", cal))
    ∧ (∀ s i, di.start = some s →
        (getIntervals cal s).findIdx? (fun iv => iv.identifier == di.identifier) = some i →
        deleteInterval cal di
          = (none,
             if (getIntervals cal s).eraseIdx i = [] then mapDelete cal (dayKey s)
             else mapSet cal (dayKey s) ((getIntervals cal s).eraseIdx i)))
    ∧ (∀ s i, di.start = some s →
        (getIntervals cal s).findIdx? (fun iv => iv.identifier == di.identifier) = some i →
        (getIntervals cal s).eraseIdx i = [] →
        (getDates cal).Nodup →
        dayKey s ∉ getDates (deleteInterval cal di).2) := by
  have hbne : ∀ s i, (getIntervals cal s).findIdx? (fun iv => iv.identifier == di.identifier) = some i →
      ¬((mapGet cal (dayKey s)).getD [] = []) := by
    intro s i hfind hnil
    have : (getIntervals cal s) = [] := hnil
    rw [this] at hfind
    simp at hfind
  refine ⟨?_, ?_, ?_, ?_, ?_⟩
  · intro hstart
    unfold deleteInterval
    simp only [hstart]
  · intro s hstart hempty
    have hempty' : ((mapGet cal (dayKey s)).getD []) = [] := hempty
    unfold deleteInterval
    simp only [hstart, hempty', if_pos rfl]
    simp
  · intro s hstart hne hfind
    have hne' : ¬((mapGet cal (dayKey s)).getD [] = []) := hne
    have hfind' : ((mapGet cal (dayKey s)).getD []).findIdx?
        (fun iv => iv.identifier == di.identifier) = none := hfind
    unfold deleteInterval
    simp only [hstart, if_neg hne', hfind']
  · intro s i hstart hfind
    have hne' := hbne s i hfind
    have hfind' : ((mapGet cal (dayKey s)).getD []).findIdx?
        (fun iv => iv.identifier == di.identifier) = some i := hfind
    unfold deleteInterval
    simp only [hstart, if_neg hne', hfind']
    have hg : getIntervals cal s = (mapGet cal (dayKey s)).getD [] := rfl
    rw [← hg]
    by_cases h : (getIntervals cal s).eraseIdx i = [] <;> simp [h]
  · intro s i hstart hfind herase hnd
    have hne' := hbne s i hfind
    have hfind' : ((mapGet cal (dayKey s)).getD []).findIdx?
        (fun iv => iv.identifier == di.identifier) = some i := hfind
    have herase' : ((mapGet cal (dayKey s)).getD []).eraseIdx i = [] := herase
    unfold deleteInterval
    simp only [hstart, if_neg hne', hfind', herase', if_pos rfl]
    exact not_mem_getDates_mapDelete cal (dayKey s) hnd

/-- Witness for the amended C6: deleting the single interval of a day
succeeds with result `null` and removes the day key. -/
theorem deleteInterval_spec_witness :
    deleteInterval
        [(dayKey ⟨2024, 6, 1, 8, 0, 0, 0⟩, [{ identifier := "b", start := some ⟨2024, 6, 1, 8, 0, 0, 0⟩, «end» := none, msg := "m" }])]
        { identifier := "b", start := some ⟨2024, 6, 1, 8, 0, 0, 0⟩, «end» := none, msg := "m" }
      = (none,
         if (getIntervals [(dayKey ⟨2024, 6, 1, 8, 0, 0, 0⟩, [{ identifier := "b", start := some ⟨2024, 6, 1, 8, 0, 0, 0⟩, «end» := none, msg := "m" }])] ⟨2024, 6, 1, 8, 0, 0, 0⟩).eraseIdx 0 = []
         then mapDelete [(dayKey ⟨2024, 6, 1, 8, 0, 0, 0⟩, [{ identifier := "b", start := some ⟨2024, 6, 1, 8, 0, 0, 0⟩, «end» := none, msg := "m" }])] (dayKey ⟨2024, 6, 1, 8, 0, 0, 0⟩)
         else mapSet [(dayKey ⟨2024, 6, 1, 8, 0, 0, 0⟩, [{ identifier := "b", start := some ⟨2024, 6, 1, 8, 0, 0, 0⟩, «end» := none, msg := "m" }])] (dayKey ⟨2024, 6, 1, 8, 0, 0, 0⟩)
           ((getIntervals [(dayKey ⟨2024, 6, 1, 8, 0, 0, 0⟩, [{ identifier := "b", start := some ⟨2024, 6, 1, 8, 0, 0, 0⟩, «end» := none, msg := "m" }])] ⟨2024, 6, 1, 8, 0, 0, 0⟩).eraseIdx 0))
    ∧ dayKey ⟨2024, 6, 1, 8, 0, 0, 0⟩
        ∉ getDates (deleteInterval
            [(dayKey ⟨2024, 6, 1, 8, 0, 0, 0⟩, [{ identifier := "b", start := some ⟨2024, 6, 1, 8, 0, 0, 0⟩, «end» := none, msg := "m" }])]
            { identifier := "b", start := some ⟨2024, 6, 1, 8, 0, 0, 0⟩, «end» := none, msg := "m" }).2 := by
  constructor
  · exact (deleteInterval_spec
      [(dayKey ⟨2024, 6, 1, 8, 0, 0, 0⟩, [{ identifier := "b", start := some ⟨2024, 6, 1, 8, 0, 0, 0⟩, «end» := none, msg := "m" }])]
      { identifier := "b", start := some ⟨2024, 6, 1, 8, 0, 0, 0⟩, «end» := none, msg := "m" }).2.2.2.1
      ⟨2024, 6, 1, 8, 0, 0, 0⟩ 0 rfl (by decide)
  · exact (deleteInterval_spec
      [(dayKey ⟨2024, 6, 1, 8, 0, 0, 0⟩, [{ identifier := "b", start := some ⟨2024, 6, 1, 8, 0, 0, 0⟩, «end» := none, msg := "m" }])]
      { identifier := "b", start := some ⟨2024, 6, 1, 8, 0, 0, 0⟩, «end» := none, msg := "m" }).2.2.2.2
      ⟨2024, 6, 1, 8, 0, 0, 0⟩ 0 rfl (by decide) (by decide) (by decide)

theorem findIdx?_none_of_no_match (l : List DateInterval) (id : String)
    (h : ∀ iv ∈ l, iv.identifier ≠ id) :
    l.findIdx? (fun iv => iv.identifier == id) = none := by
  rw [List.findIdx?_eq_none_iff]
  intro iv hiv
  simpa using h iv hiv

/-- Claim C7: `updateInterval` looks the record up in the bucket keyed by
the post-normalization `start`; when an interval stored under one day has
its `start` edited to a different day (so that no record with its
identifier is in the new day's bucket), the call returns a NotFound error
string, the calendar and descriptions are untouched, and the original
record remains in its old bucket. -/
theorem updateInterval_cross_day_notfound (cal : Calendar) (descs : List String)
    (di : DateInterval) (sOld sNew : Time) (rec : DateInterval)
    (hs : di.start = some sNew) (hdiff : dayKey sNew ≠ dayKey sOld)
    (hrec : rec ∈ getIntervals cal sOld) (hid : rec.identifier = di.identifier)
    (hnew : ∀ iv ∈ getIntervals cal sNew, iv.identifier ≠ di.identifier) :
    ((updateInterval cal descs di).1 = some "Interval not found"
      ∨ (updateInterval cal descs di).1
          = some ("No intervals found for the specified date : " ++ dayKey sNew))
    ∧ (updateInterval cal descs di).2.1 = cal
    ∧ (updateInterval cal descs di).2.2 = descs
    ∧ rec ∈ getIntervals ((updateInterval cal descs di).2.1) sOld := by
  by_cases hb : getIntervals cal sNew = []
  · have hb' : ((mapGet cal (dayKey sNew)).getD []) = [] := hb
    have hres : updateInterval cal descs di
        = (some ("No intervals found for the specified date : " ++ dayKey sNew), cal, descs) := by
      unfold updateInterval
      simp only [hs, hb', if_pos rfl]
      simp
    rw [hres]
    exact ⟨Or.inr rfl, rfl, rfl, hrec⟩
  · have hb' : ¬((mapGet cal (dayKey sNew)).getD [] = []) := hb
    have hfind : ((mapGet cal (dayKey sNew)).getD []).findIdx?
        (fun iv => iv.identifier == di.identifier) = none :=
      findIdx?_none_of_no_match _ _ hnew
    have hres : updateInterval cal descs di = (some "Interval not found", cal, descs) := by
      unfold updateInterval
      simp only [hs, if_neg hb', hfind]
    rw [hres]
    exact ⟨Or.inl rfl, rfl, rfl, hrec⟩

/-- Witness for C7: an interval stored under May 10 whose `start` is
edited to May 11; the update reports the record as not found and the store
keeps the original record under May 10. -/
theorem updateInterval_cross_day_notfound_witness :
    ((updateInterval
        [(dayKey ⟨2024, 5, 10, 9, 0, 0, 0⟩, [{ identifier := "a", start := some ⟨2024, 5, 10, 9, 0, 0, 0⟩, «end» := none, msg := "w" }])] []
        { identifier := "a", start := some ⟨2024, 5, 11, 9, 0, 0, 0⟩, «end» := none, msg := "w" }).1
        = some "Interval not found"
      ∨ (updateInterval
        [(dayKey ⟨2024, 5, 10, 9, 0, 0, 0⟩, [{ identifier := "a", start := some ⟨2024, 5, 10, 9, 0, 0, 0⟩, «end» := none, msg := "w" }])] []
        { identifier := "a", start := some ⟨2024, 5, 11, 9, 0, 0, 0⟩, «end» := none, msg := "w" }).1
        = some ("No intervals found for the specified date : " ++ dayKey ⟨2024, 5, 11, 9, 0, 0, 0⟩))
    ∧ { identifier := "a", start := some ⟨2024, 5, 10, 9, 0, 0, 0⟩, «end» := none, msg := "w" }
        ∈ getIntervals ((updateInterval
            [(dayKey ⟨2024, 5, 10, 9, 0, 0, 0⟩, [{ identifier := "a", start := some ⟨2024, 5, 10, 9, 0, 0, 0⟩, «end» := none, msg := "w" }])] []
            { identifier := "a", start := some ⟨2024, 5, 11, 9, 0, 0, 0⟩, «end» := none, msg := "w" }).2.1)
            ⟨2024, 5, 10, 9, 0, 0, 0⟩ := by
  have h := updateInterval_cross_day_notfound
    [(dayKey ⟨2024, 5, 10, 9, 0, 0, 0⟩, [{ identifier := "a", start := some ⟨2024, 5, 10, 9, 0, 0, 0⟩, «end» := none, msg := "w" }])] []
    { identifier := "a", start := some ⟨2024, 5, 11, 9, 0, 0, 0⟩, «end» := none, msg := "w" }
    ⟨2024, 5, 10, 9, 0, 0, 0⟩ ⟨2024, 5, 11, 9, 0, 0, 0⟩
    { identifier := "a", start := some ⟨2024, 5, 10, 9, 0, 0, 0⟩, «end» := none, msg := "w" }
    rfl (by decide) (by decide) rfl (by decide)
  exact ⟨h.1, h.2.2.2⟩

/-- The error conditions of `updateInterval` / `deleteInterval`: missing
`start`, empty (or absent) bucket, or no record matching the identifier. -/
def lookupFails (cal : Calendar) (di : DateInterval) : Prop :=
  match di.start with
  | none => True
  | some s =>
    getIntervals cal s = []
      ∨ (getIntervals cal s).findIdx? (fun iv => iv.identifier == di.identifier) = none

/-- Claim C10: `updateInterval` and `deleteInterval` are atomic on error —
whenever the lookup fails (missing `start`, empty bucket, or no record
matching the identifier) both calls return an error value and leave the
in-memory calendar mapping (and, for update, the descriptions state)
exactly as it was: no bucket is created, removed, or modified. -/
theorem update_delete_atomic_on_error (cal : Calendar) (descs : List String)
    (di : DateInterval) (herr : lookupFails cal di) :
    (updateInterval cal descs di).2.1 = cal
    ∧ (updateInterval cal descs di).2.2 = descs
    ∧ (∃ e, (updateInterval cal descs di).1 = some e)
    ∧ (deleteInterval cal di).2 = cal
    ∧ (∃ e, (deleteInterval cal di).1 = some e) := by
  cases hstart : di.start with
  | none =>
    have hu : updateInterval cal descs di = (some "Start date is required", cal, descs) := by
      unfold updateInterval
      simp only [hstart]
    have hd : deleteInterval cal di = (some "Start date is required", cal) := by
      unfold deleteInterval
      simp only [hstart]
    rw [hu, hd]
    exact ⟨rfl, rfl, ⟨_, rfl⟩, rfl, ⟨_, rfl⟩⟩
  | some s =>
    unfold lookupFails at herr
    rw [hstart] at herr
    by_cases hb : getIntervals cal s = []
    · have hb' : ((mapGet cal (dayKey s)).getD []) = [] := hb
      have hu : updateInterval cal descs di
          = (some ("No intervals found for the specified date : " ++ dayKey s), cal, descs) := by
        unfold updateInterval
        simp only [hstart, hb', if_pos rfl]
        simp
      have hd : deleteInterval cal di
          = (some ("No intervals found for the specified date : " ++ dayKey s), cal) := by
        unfold deleteInterval
        simp only [hstart, hb', if_pos rfl]
        simp
      rw [hu, hd]
      exact ⟨rfl, rfl, ⟨_, rfl⟩, rfl, ⟨_, rfl⟩⟩
    · have hfind : (getIntervals cal s).findIdx?
          (fun iv => iv.identifier == di.identifier) = none := by
        rcases herr with h | h
        · exact absurd h hb
        · exact h
      have hb' : ¬((mapGet cal (dayKey s)).getD [] = []) := hb
      have hfind' : ((mapGet cal (dayKey s)).getD []).findIdx?
          (fun iv => iv.identifier == di.identifier) = none := hfind
      have hu : updateInterval cal descs di = (some "Interval not found", cal, descs) := by
        unfold updateInterval
        simp only [hstart, if_neg hb', hfind']
      have hd : deleteInterval cal di = (some "Interval not found", cal) := by
        unfold deleteInterval
        simp only [hstart, if_neg hb', hfind']
      rw [hu, hd]
      exact ⟨rfl, rfl, ⟨_, rfl⟩, rfl, ⟨_, rfl⟩⟩

/-- Witness for C10: updating/deleting an interval on an empty store
returns an error and changes nothing. -/
theorem update_delete_atomic_on_error_witness :
    (updateInterval [] ["d"] { identifier := "q", start := some ⟨2024, 5, 10, 9, 0, 0, 0⟩, «end» := none, msg := "" }).2.1 = []
    ∧ (updateInterval [] ["d"] { identifier := "q", start := some ⟨2024, 5, 10, 9, 0, 0, 0⟩, «end» := none, msg := "" }).2.2 = ["d"]
    ∧ (deleteInterval [] { identifier := "q", start := some ⟨2024, 5, 10, 9, 0, 0, 0⟩, «end» := none, msg := "" }).2 = [] := by
  have h := update_delete_atomic_on_error [] ["d"]
    { identifier := "q", start := some ⟨2024, 5, 10, 9, 0, 0, 0⟩, «end» := none, msg := "" }
    (Or.inl (by decide))
  exact ⟨h.1, h.2.1, h.2.2.2.1⟩

theorem mem_dedupFirstAux (seen l : List String) (y : String) :
    y ∈ dedupFirstAux seen l ↔ y ∉ seen ∧ y ∈ l := by
  induction l generalizing seen with
  | nil => simp [dedupFirstAux]
  | cons x xs ih =>
    by_cases hx : x ∈ seen
    · rw [dedupFirstAux, if_pos hx, ih]
      constructor
      · rintro ⟨h1, h2⟩
        exact ⟨h1, List.mem_cons_of_mem x h2⟩
      · rintro ⟨h1, h2⟩
        rcases List.mem_cons.mp h2 with rfl | h2
        · exact absurd hx h1
        · exact ⟨h1, h2⟩
    · rw [dedupFirstAux, if_neg hx]
      constructor
      · intro hmem
        rcases List.mem_cons.mp hmem with heq | hmem
        · subst heq
          exact ⟨hx, List.mem_cons_self _ xs⟩
        · obtain ⟨h1, h2⟩ := (ih (x :: seen)).mp hmem
          exact ⟨fun hy => h1 (List.mem_cons_of_mem x hy), List.mem_cons_of_mem x h2⟩
      · rintro ⟨h1, h2⟩
        rcases List.mem_cons.mp h2 with heq | h2
        · subst heq
          exact List.mem_cons_self _ _
        · by_cases hyx : y = x
          · subst hyx
            exact List.mem_cons_self y _
          · refine List.mem_cons_of_mem x ((ih (x :: seen)).mpr ⟨?_, h2⟩)
            intro hmem
            rcases List.mem_cons.mp hmem with h | h
            · exact hyx h
            · exact h1 h

theorem nodup_dedupFirstAux (seen l : List String) : (dedupFirstAux seen l).Nodup := by
  induction l generalizing seen with
  | nil => simp [dedupFirstAux]
  | cons x xs ih =>
    by_cases hx : x ∈ seen
    · rw [dedupFirstAux, if_pos hx]
      exact ih seen
    · rw [dedupFirstAux, if_neg hx]
      refine List.nodup_cons.mpr ⟨?_, ih (x :: seen)⟩
      intro hmem
      exact ((mem_dedupFirstAux (x :: seen) xs x).mp hmem).1 (List.mem_cons_self x seen)

theorem mem_dedupFirst (l : List String) (y : String) : y ∈ dedupFirst l ↔ y ∈ l := by
  unfold dedupFirst
  rw [mem_dedupFirstAux]
  simp

theorem mem_sortStrings (l : List String) (y : String) : y ∈ sortStrings l ↔ y ∈ l :=
  (List.perm_insertionSort _ l).mem_iff

/-- Unfolding of `updateInterval` on its success path. -/
theorem updateInterval_success (cal : Calendar) (descs : List String) (di : DateInterval)
    (s : Time) (i : Nat) (hs : di.start = some s)
    (hfind : (getIntervals cal s).findIdx? (fun iv => iv.identifier == di.identifier) = some i)
    (hchanged : ((getIntervals cal s).set i (cropDayInterval di)).map (fun iv => iv.msg) ≠ descs) :
    updateInterval cal descs di
      = (some (cropDayInterval di).identifier,
         mapSet cal (dayKey s) ((getIntervals cal s).set i (cropDayInterval di)),
         sortStrings (dedupFirst
           (((getIntervals cal s).set i (cropDayInterval di)).map (fun iv => iv.msg)))) := by
  have hbne : ¬((mapGet cal (dayKey s)).getD [] = []) := by
    intro hnil
    have heq : (getIntervals cal s) = [] := hnil
    rw [heq] at hfind
    simp at hfind
  have hfind' : ((mapGet cal (dayKey s)).getD []).findIdx?
      (fun iv => iv.identifier == di.identifier) = some i := hfind
  have hchanged' : (((mapGet cal (dayKey s)).getD []).set i (cropDayInterval di)).map
      (fun iv => iv.msg) ≠ descs := hchanged
  unfold updateInterval
  simp only [hs, if_neg hbne, hfind', if_pos hchanged']
  rfl

/-- Counterexample to claim C8: after a successful `updateInterval` on a
first-day bucket holding labels `""` and `"a"` while a second day's
interval carries label `"b"`, `getDescriptions` returns the sorted
deduplication of `["", "a"]` — the empty-string label IS an element of the
output, and the still-stored label `"b"` is missing, so the output is not
the deduplicated sorted set of non-empty labels of all intervals in the
store. -/
theorem getDescriptions_counterexample :
    "" ∈ getDescriptions
        ((updateInterval
          [(dayKey ⟨2024, 7, 1, 9, 0, 0, 0⟩,
              [{ identifier := "i1", start := some ⟨2024, 7, 1, 9, 0, 0, 0⟩, «end» := some ⟨2024, 7, 1, 10, 0, 0, 0⟩, msg := "" },
               { identifier := "i2", start := some ⟨2024, 7, 1, 11, 0, 0, 0⟩, «end» := none, msg := "a" }]),
            (dayKey ⟨2024, 7, 2, 9, 0, 0, 0⟩,
              [{ identifier := "i3", start := some ⟨2024, 7, 2, 9, 0, 0, 0⟩, «end» := none, msg := "b" }])] []
          { identifier := "i2", start := some ⟨2024, 7, 1, 11, 0, 0, 0⟩, «end» := none, msg := "a" }).2.2)
    ∧ "b" ∉ getDescriptions
        ((updateInterval
          [(dayKey ⟨2024, 7, 1, 9, 0, 0, 0⟩,
              [{ identifier := "i1", start := some ⟨2024, 7, 1, 9, 0, 0, 0⟩, «end» := some ⟨2024, 7, 1, 10, 0, 0, 0⟩, msg := "" },
               { identifier := "i2", start := some ⟨2024, 7, 1, 11, 0, 0, 0⟩, «end» := none, msg := "a" }]),
            (dayKey ⟨2024, 7, 2, 9, 0, 0, 0⟩,
              [{ identifier := "i3", start := some ⟨2024, 7, 2, 9, 0, 0, 0⟩, «end» := none, msg := "b" }])] []
          { identifier := "i2", start := some ⟨2024, 7, 1, 11, 0, 0, 0⟩, «end» := none, msg := "a" }).2.2)
    ∧ (∃ iv ∈ getIntervals
        ((updateInterval
          [(dayKey ⟨2024, 7, 1, 9, 0, 0, 0⟩,
              [{ identifier := "i1", start := some ⟨2024, 7, 1, 9, 0, 0, 0⟩, «end» := some ⟨2024, 7, 1, 10, 0, 0, 0⟩, msg := "" },
               { identifier := "i2", start := some ⟨2024, 7, 1, 11, 0, 0, 0⟩, «end» := none, msg := "a" }]),
            (dayKey ⟨2024, 7, 2, 9, 0, 0, 0⟩,
              [{ identifier := "i3", start := some ⟨2024, 7, 2, 9, 0, 0, 0⟩, «end» := none, msg := "b" }])] []
          { identifier := "i2", start := some ⟨2024, 7, 1, 11, 0, 0, 0⟩, «end» := none, msg := "a" }).2.1)
        ⟨2024, 7, 2, 9, 0, 0, 0⟩, iv.msg = "b") := by
  have hres := updateInterval_success
    [(dayKey ⟨2024, 7, 1, 9, 0, 0, 0⟩,
        [{ identifier := "i1", start := some ⟨2024, 7, 1, 9, 0, 0, 0⟩, «end» := some ⟨2024, 7, 1, 10, 0, 0, 0⟩, msg := "" },
         { identifier := "i2", start := some ⟨2024, 7, 1, 11, 0, 0, 0⟩, «end» := none, msg := "a" }]),
      (dayKey ⟨2024, 7, 2, 9, 0, 0, 0⟩,
        [{ identifier := "i3", start := some ⟨2024, 7, 2, 9, 0, 0, 0⟩, «end» := none, msg := "b" }])] []
    { identifier := "i2", start := some ⟨2024, 7, 1, 11, 0, 0, 0⟩, «end» := none, msg := "a" }
    ⟨2024, 7, 1, 11, 0, 0, 0⟩ 1 rfl (by decide) (by decide)
  have hmsgs : ((getIntervals
      [(dayKey ⟨2024, 7, 1, 9, 0, 0, 0⟩,
          [{ identifier := "i1", start := some ⟨2024, 7, 1, 9, 0, 0, 0⟩, «end» := some ⟨2024, 7, 1, 10, 0, 0, 0⟩, msg := "" },
           { identifier := "i2", start := some ⟨2024, 7, 1, 11, 0, 0, 0⟩, «end» := none, msg := "a" }]),
        (dayKey ⟨2024, 7, 2, 9, 0, 0, 0⟩,
          [{ identifier := "i3", start := some ⟨2024, 7, 2, 9, 0, 0, 0⟩, «end» := none, msg := "b" }])]
      ⟨2024, 7, 1, 11, 0, 0, 0⟩).set 1
        (cropDayInterval { identifier := "i2", start := some ⟨2024, 7, 1, 11, 0, 0, 0⟩, «end» := none, msg := "a" })).map
      (fun iv => iv.msg) = ["", "a"] := by decide
  have hdescs : (updateInterval
      [(dayKey ⟨2024, 7, 1, 9, 0, 0, 0⟩,
          [{ identifier := "i1", start := some ⟨2024, 7, 1, 9, 0, 0, 0⟩, «end» := some ⟨2024, 7, 1, 10, 0, 0, 0⟩, msg := "" },
           { identifier := "i2", start := some ⟨2024, 7, 1, 11, 0, 0, 0⟩, «end» := none, msg := "a" }]),
        (dayKey ⟨2024, 7, 2, 9, 0, 0, 0⟩,
          [{ identifier := "i3", start := some ⟨2024, 7, 2, 9, 0, 0, 0⟩, «end» := none, msg := "b" }])] []
      { identifier := "i2", start := some ⟨2024, 7, 1, 11, 0, 0, 0⟩, «end» := none, msg := "a" }).2.2
      = sortStrings (dedupFirst ["", "a"]) := by
    rw [hres]
    rw [hmsgs]
  have hmem : "" ∈ sortStrings (dedupFirst ["", "a"]) := by
    rw [mem_sortStrings, mem_dedupFirst]
    decide
  have hne : sortStrings (dedupFirst ["", "a"]) ≠ [] := List.ne_nil_of_mem hmem
  have hgd : getDescriptions (sortStrings (dedupFirst ["", "a"]))
      = sortStrings (dedupFirst ["", "a"]) := by
    unfold getDescriptions
    rw [if_pos (by simpa [List.length_pos] using hne)]
  refine ⟨?_, ?_, ?_⟩
  · rw [hdescs, hgd]
    exact hmem
  · rw [hdescs, hgd, mem_sortStrings, mem_dedupFirst]
    decide
  · rw [hres]
    have hget : getIntervals
        (mapSet
          [(dayKey ⟨2024, 7, 1, 9, 0, 0, 0⟩,
              [{ identifier := "i1", start := some ⟨2024, 7, 1, 9, 0, 0, 0⟩, «end» := some ⟨2024, 7, 1, 10, 0, 0, 0⟩, msg := "" },
               { identifier := "i2", start := some ⟨2024, 7, 1, 11, 0, 0, 0⟩, «end» := none, msg := "a" }]),
            (dayKey ⟨2024, 7, 2, 9, 0, 0, 0⟩,
              [{ identifier := "i3", start := some ⟨2024, 7, 2, 9, 0, 0, 0⟩, «end» := none, msg := "b" }])]
          (dayKey ⟨2024, 7, 1, 11, 0, 0, 0⟩)
          ((getIntervals
            [(dayKey ⟨2024, 7, 1, 9, 0, 0, 0⟩,
                [{ identifier := "i1", start := some ⟨2024, 7, 1, 9, 0, 0, 0⟩, «end» := some ⟨2024, 7, 1, 10, 0, 0, 0⟩, msg := "" },
                 { identifier := "i2", start := some ⟨2024, 7, 1, 11, 0, 0, 0⟩, «end» := none, msg := "a" }]),
              (dayKey ⟨2024, 7, 2, 9, 0, 0, 0⟩,
                [{ identifier := "i3", start := some ⟨2024, 7, 2, 9, 0, 0, 0⟩, «end» := none, msg := "b" }])]
            ⟨2024, 7, 1, 11, 0, 0, 0⟩).set 1
            (cropDayInterval { identifier := "i2", start := some ⟨2024, 7, 1, 11, 0, 0, 0⟩, «end» := none, msg := "a" })))
        ⟨2024, 7, 2, 9, 0, 0, 0⟩
        = [{ identifier := "i3", start := some ⟨2024, 7, 2, 9, 0, 0, 0⟩, «end» := none, msg := "b" }] := by
      decide
    rw [hget]
    exact ⟨_, List.mem_singleton_self _, rfl⟩

/-- Claim C8 as amended: `getDescriptions` returns the sentinel
`["No descriptions available"]` when the stored descriptions list is
empty, and otherwise returns that list unchanged; the list is not the set
of non-empty labels of the whole store — it is set only by a successful
`updateInterval` whose label list differs from the current one, to the
deduplicated, lexicographically sorted list of the labels of the updated
day's bucket, empty-string labels included. -/
theorem getDescriptions_spec (cal : Calendar) (descs : List String) (di : DateInterval) :
    getDescriptions [] = ["No descriptions available"]
    ∧ (descs ≠ [] → getDescriptions descs = descs)
    ∧ (∀ s i, di.start = some s →
        (getIntervals cal s).findIdx? (fun iv => iv.identifier == di.identifier) = some i →
        ((getIntervals cal s).set i (cropDayInterval di)).map (fun iv => iv.msg) ≠ descs →
        (updateInterval cal descs di).2.2
            = sortStrings (dedupFirst
                (((getIntervals cal s).set i (cropDayInterval di)).map (fun iv => iv.msg)))
          ∧ ((updateInterval cal descs di).2.2).Nodup
          ∧ List.Sorted (fun a b => a ≤ b) ((updateInterval cal descs di).2.2)
          ∧ ∀ lbl, lbl ∈ (updateInterval cal descs di).2.2
              ↔ lbl ∈ ((getIntervals cal s).set i (cropDayInterval di)).map (fun iv => iv.msg)) := by
  refine ⟨rfl, ?_, ?_⟩
  · intro h
    unfold getDescriptions
    rw [if_pos (by simpa [List.length_pos] using h)]
  · intro s i hs hfind hchanged
    have hres : (updateInterval cal descs di).2.2
        = sortStrings (dedupFirst
            (((getIntervals cal s).set i (cropDayInterval di)).map (fun iv => iv.msg))) := by
      rw [updateInterval_success cal descs di s i hs hfind hchanged]
    refine ⟨hres, ?_, ?_, ?_⟩
    · rw [hres]
      exact (List.perm_insertionSort _ _).nodup_iff.mpr (nodup_dedupFirstAux [] _)
    · rw [hres]
      exact List.sorted_insertionSort _ _
    · intro lbl
      rw [hres, mem_sortStrings, mem_dedupFirst]

/-- Witness for the amended C8 at a one-interval day: a successful update
sets the descriptions to the sorted deduplicated label list of that
bucket, and the empty state yields the sentinel. -/
theorem getDescriptions_spec_witness :
    (updateInterval
        [(dayKey ⟨2024, 8, 1, 9, 0, 0, 0⟩, [{ identifier := "u", start := some ⟨2024, 8, 1, 9, 0, 0, 0⟩, «end» := none, msg := "a" }])] []
        { identifier := "u", start := some ⟨2024, 8, 1, 9, 0, 0, 0⟩, «end» := none, msg := "a" }).2.2
      = sortStrings (dedupFirst
          (((getIntervals
              [(dayKey ⟨2024, 8, 1, 9, 0, 0, 0⟩, [{ identifier := "u", start := some ⟨2024, 8, 1, 9, 0, 0, 0⟩, «end» := none, msg := "a" }])]
              ⟨2024, 8, 1, 9, 0, 0, 0⟩).set 0
            (cropDayInterval { identifier := "u", start := some ⟨2024, 8, 1, 9, 0, 0, 0⟩, «end» := none, msg := "a" })).map (fun iv => iv.msg)))
    ∧ getDescriptions [] = ["No descriptions available"] := by
  have h := getDescriptions_spec
    [(dayKey ⟨2024, 8, 1, 9, 0, 0, 0⟩, [{ identifier := "u", start := some ⟨2024, 8, 1, 9, 0, 0, 0⟩, «end» := none, msg := "a" }])] []
    { identifier := "u", start := some ⟨2024, 8, 1, 9, 0, 0, 0⟩, «end» := none, msg := "a" }
  exact ⟨(h.2.2 ⟨2024, 8, 1, 9, 0, 0, 0⟩ 0 rfl (by decide) (by decide)).1, h.1⟩
